import Mathlib

/-!
Verification of the sarcasm-detection service's feedback-driven retraining loop.

Shallow embedding of the three source files:
  - api/app.py      : the serving endpoints (predict with server-side thresholding,
                      feedback with sha1-keyed deduplication, feedback_count);
  - train.py        : the training-set builder (up-weighting of disagreements and
                      uncertain agreements), the seeded shuffle and validation split;
  - api/autotrain.py: the retrain scheduler (should_train), the promotion pipeline
                      (main), checkpoint pruning (prune_old_models) and run-state
                      persistence.

Conventions: probability scores are embedded as rationals, timestamps as integer
seconds since the Unix epoch (ISO datetime strings in the source), files as lists
of lines or abstract contents.  Library black boxes (hashlib.sha1, the Mersenne
Twister stream behind random.shuffle, json serialisation of the state file, the
HTTP classifier) are abstracted as function parameters, so every theorem holds
for the actual library instantiation.
-/

namespace Sarcasm

/-- The two classification labels admitted by the HTTP layer
(pydantic `Literal` on predicted_label / user_label in app.py). -/
inductive Lbl where
  | SARCASM
  | NOT_SARCASM
  deriving DecidableEq, Repr

namespace Autotrain

/-- MIN_TOTAL = 30 (autotrain.py policy knob, default profile). -/
def MIN_TOTAL : Int := 30

/-- MIN_NEW = 10. -/
def MIN_NEW : Int := 10

/-- COOLDOWN = timedelta(hours=24), embedded in seconds. -/
def COOLDOWN : Int := 24 * 3600

/-- KEEP_LAST = 5. -/
def KEEP_LAST : Nat := 5

/-- Contents of data/train_state.json (last_time is an ISO datetime in the
source, embedded as epoch seconds). -/
structure TrainState where
  last_count : Int
  last_time : Int
  last_model : String
  deriving DecidableEq, Repr

/-- The default returned by load_state when the file is missing or unparseable:
last_count 0, last_time 1970-01-01T00:00:00 (epoch 0), empty model path. -/
def defaultState : TrainState := { last_count := 0, last_time := 0, last_model := "" }

/-- should_train of autotrain.py.  The source reads datetime.utcnow() inside the
body; it is passed here explicitly as now. -/
def should_train (total : Int) (state : TrainState) (now : Int) : Bool :=
  if total < MIN_TOTAL then
    false
  else
    if total - state.last_count < MIN_NEW ∧ now - state.last_time < COOLDOWN then
      false
    else
      true

end Autotrain

namespace AppApi

/-- THRESHOLD = 0.50 (app.py, optional server-side thresholding). -/
def THRESHOLD : Rat := 1 / 2

/-- LABEL_MAP of app.py: raw classifier labels to friendly names. -/
def LABEL_MAP : List (String × String) :=
  [("LABEL_0", "NOT_SARCASM"), ("LABEL_1", "SARCASM"),
   ("0", "NOT_SARCASM"), ("1", "SARCASM"),
   ("sarcastic", "SARCASM"), ("non-sarcastic", "NOT_SARCASM")]

/-- LABEL_MAP.get(raw, raw): dictionary lookup defaulting to the raw label. -/
def label_map_get (raw : String) : String :=
  match LABEL_MAP.find? (fun kv => kv.1 == raw) with
  | some kv => kv.2
  | none => raw

/-- One output of the black-box classifier pipeline: a raw label string and a
confidence score. -/
structure RawOut where
  label : String
  score : Rat
  deriving DecidableEq, Repr

/-- Per-text label postprocessing inside predict: map the raw label, then force
NOT_SARCASM when the mapped label is SARCASM with score below THRESHOLD. -/
def postLabel (o : RawOut) : String :=
  let mapped := label_map_get o.label
  if mapped = "SARCASM" ∧ o.score < THRESHOLD then "NOT_SARCASM" else mapped

/-- Loop body of predict: append the postprocessed label and the score. -/
def predictStep (clf : String → RawOut) (acc : List String × List Rat) (t : String) :
    List String × List Rat :=
  let o := clf t
  (acc.1 ++ [postLabel o], acc.2 ++ [o.score])

/-- The predict endpoint body (app.py): zip the input texts with the classifier
outputs and accumulate labels and scores in input order.  The classifier is the
black-box collaborator classify(texts) -> [(rawLabel, score)], one output per
input text, abstracted as clf applied pointwise. -/
def predict (clf : String → RawOut) (texts : List String) : List String × List Rat :=
  texts.foldl (predictStep clf) ([], [])

/-- Body of a POST /feedback request (FeedbackIn of app.py). -/
structure FeedbackIn where
  url : Option String
  text : String
  predicted_label : Sarcasm.Lbl
  score : Rat
  user_label : Sarcasm.Lbl
  deriving DecidableEq

/-- One persisted line of data/feedback.jsonl. -/
structure FeedbackRecord where
  id : String
  timestamp : Int
  url : Option String
  text : String
  predicted_label : Sarcasm.Lbl
  score : Rat
  user_label : Sarcasm.Lbl
  deriving DecidableEq

/-- rid = sha1((url or "") + "||" + text.strip()).hexdigest(); the sha1 digest
(hashlib black box) is abstracted as the function h. -/
def rid (h : String → String) (fb : FeedbackIn) : String :=
  h ((fb.url.getD "") ++ "||" ++ fb.text.trim)

/-- The record dict built by the feedback endpoint before the dedup scan. -/
def mkRecord (h : String → String) (now : Int) (fb : FeedbackIn) : FeedbackRecord :=
  { id := rid h fb, timestamp := now, url := fb.url, text := fb.text.trim,
    predicted_label := fb.predicted_label, score := fb.score,
    user_label := fb.user_label }

/-- Response of the feedback endpoint: the source returns the literal
dict with the single key ok, always true. -/
structure FeedbackResp where
  ok : Bool
  deriving DecidableEq, Repr

/-- The feedback endpoint (app.py): compute the sha1 id, scan the stored
records for that id, append the record only when unseen, and return ok. -/
def feedback (h : String → String) (now : Int) (fb : FeedbackIn)
    (store : List FeedbackRecord) : List FeedbackRecord × FeedbackResp :=
  let record := mkRecord h now fb
  let seen := store.map (fun r => r.id)
  if record.id ∈ seen then
    (store, { ok := true })
  else
    (store ++ [record], { ok := true })

/-- feedback_count endpoint: number of non-blank persisted lines; every
append writes exactly one non-blank JSON line, so this is the store length. -/
def feedback_count (store : List FeedbackRecord) : Nat :=
  store.length

end AppApi

namespace Train

/-- DISAGREE_DUP = 3 (train.py). -/
def DISAGREE_DUP : Nat := 3

/-- UNCERT_BAND = (0.45, 0.65). -/
def UNCERT_BAND : Rat × Rat := (45 / 100, 65 / 100)

/-- UNCERT_DUP = 2. -/
def UNCERT_DUP : Nat := 2

/-- SEED = 31415 (seeds the global random and numpy generators at import). -/
def SEED : Nat := 31415

/-- One row produced by read_feedback from feedback.jsonl: text, the user
(ground-truth) label, the label the model predicted, and the stored score for
the predicted class.  The labels are the two pydantic-validated literals. -/
structure FbRow where
  text : String
  user : Sarcasm.Lbl
  pred : Sarcasm.Lbl
  score : Rat
  deriving DecidableEq, Repr

/-- label2id = NOT_SARCASM 0, SARCASM 1. -/
def label2id : Sarcasm.Lbl → Nat
  | Sarcasm.Lbl.NOT_SARCASM => 0
  | Sarcasm.Lbl.SARCASM => 1

/-- A weighted training row: the dict with keys text and label. -/
structure TRow where
  text : String
  label : Nat
  deriving DecidableEq, Repr

/-- p_sarcasm_from_row: the stored score converted to P(SARCASM). -/
def p_sarcasm_from_row (r : FbRow) : Rat :=
  if r.pred = Sarcasm.Lbl.SARCASM then r.score else 1 - r.score

/-- One iteration of the build_training_rows loop: append the base row, then
the extra duplicates for a disagreement or an uncertain agreement. -/
def buildStep (out : List TRow) (r : FbRow) : List TRow :=
  let y := label2id r.user
  let out2 := out ++ [⟨r.text, y⟩]
  if r.user ≠ r.pred then
    out2 ++ List.replicate (DISAGREE_DUP - 1) ⟨r.text, y⟩
  else
    if UNCERT_BAND.1 ≤ p_sarcasm_from_row r ∧ p_sarcasm_from_row r ≤ UNCERT_BAND.2 then
      out2 ++ List.replicate (UNCERT_DUP - 1) ⟨r.text, y⟩
    else
      out2

/-- build_training_rows of train.py. -/
def build_training_rows (rows : List FbRow) : List TRow :=
  rows.foldl buildStep []

/-- The number of copies a feedback row contributes. -/
def rowWeight (r : FbRow) : Nat :=
  if r.user ≠ r.pred then DISAGREE_DUP
  else
    if UNCERT_BAND.1 ≤ p_sarcasm_from_row r ∧ p_sarcasm_from_row r ≤ UNCERT_BAND.2 then
      UNCERT_DUP
    else
      1

/-- One in-place swap x[i], x[j] = x[j], x[i]; identity on out-of-range
indices (never hit by the shuffle loop). -/
def swapIdx {α : Type} (l : List α) (i j : Nat) : List α :=
  if hi : i < l.length then
    if hj : j < l.length then
      (l.set i (l.get ⟨j, hj⟩)).set j (l.get ⟨i, hi⟩)
    else
      l
  else
    l

/-- The Fisher-Yates loop of random.shuffle: for i in reversed(range(1, n)),
draw j = randbelow(i+1) and swap x[i] with x[j].  The seeded Mersenne Twister
(random black box, fixed by SEED at import) is abstracted as the draw stream g,
with randbelow(i+1) embedded as g i % (i+1); every theorem below holds for
every stream, hence for the stream the seed produces. -/
def shuffleGo {α : Type} (g : Nat → Nat) : Nat → List α → List α
  | 0, l => l
  | i + 1, l => shuffleGo g i (swapIdx l (i + 1) (g (i + 1) % (i + 2)))

/-- random.shuffle(train_rows): the loop from i = n-1 down to 1. -/
def pyShuffle {α : Type} (g : Nat → Nat) (l : List α) : List α :=
  shuffleGo g (l.length - 1) l

/-- The validation split in main of train.py: shuffle under the module seed,
n_val = max(1, int(0.1 * n)) — int(0.1 * n) equals the floor division n / 10
for every attainable n — validation rows from the head of the shuffled
sequence, training rows the rest. -/
def main_split (g : Nat → Nat) (train_rows : List TRow) : List TRow × List TRow :=
  let shuffled := pyShuffle g train_rows
  let n := shuffled.length
  let n_val := max 1 (n / 10)
  (shuffled.take n_val, shuffled.drop n_val)

end Train

namespace Autotrain

/-- Comparator of folders.sort(key=mtime, reverse=True): a sorts before b
when its modification time is at least as recent. -/
def mtimeGe (a b : String × Int) : Bool :=
  decide (b.2 ≤ a.2)

/-- shutil.rmtree inside the prune loop, acting on the directory listing: a
successful deletion removes the named directory, a failure is caught by the
try/except, logged, and leaves the listing as it was. -/
def rmtree (rm_ok : String → Bool) (fs : List (String × Int)) (name : String) :
    List (String × Int) :=
  if rm_ok name then fs.filter (fun d => !(d.1 == name)) else fs

/-- prune_old_models of autotrain.py: sort the model directories newest first
and attempt to delete every directory beyond the newest keep, one by one. -/
def prune_old_models (rm_ok : String → Bool) (fs : List (String × Int)) (keep : Nat) :
    List (String × Int) :=
  let folders := fs.mergeSort mtimeGe
  ((folders.drop keep).map (fun d => d.1)).foldl (rmtree rm_ok) fs

/-- Truthiness of l.strip(): a line is blank when every character is whitespace. -/
def isBlank (l : String) : Bool :=
  l.toList.all (fun c => c.isWhitespace)

/-- read_count of autotrain.py: the number of non-blank lines of the feedback
file (a missing file is the empty line list). -/
def read_count (lines : List String) : Nat :=
  (lines.filter (fun l => !(isBlank l))).length

/-- Scan for the first occurrence of the marker and return the suffix after
it, as re.search does left to right. -/
def dropAfterMarker (marker : List Char) : List Char → Option (List Char)
  | [] => none
  | c :: cs =>
    if marker.isPrefixOf (c :: cs) then
      some ((c :: cs).drop marker.length)
    else
      dropAfterMarker marker cs

/-- The captured group of the pattern: skip whitespace, take at least one
character up to the end of the line, then strip the result. -/
def captureLine (cs : List Char) : Option String :=
  let rest := cs.dropWhile (fun c => c.isWhitespace)
  let line := rest.takeWhile (fun c => !(c == '\n'))
  if line.isEmpty then
    none
  else
    some (String.mk ((line.reverse.dropWhile (fun c => c.isWhitespace)).reverse))

/-- The parse inside run_train: the first match of the pattern
"Saved new model to:" followed by optional whitespace and a non-empty rest of
line, stripped — none when the marker line is absent, in which case run_train
raises RuntimeError. -/
def parse_saved_model (out : String) : Option String :=
  match dropAfterMarker ("Saved new model to:".toList) out.toList with
  | some cs => captureLine cs
  | none => none

/-- Environment a run executes in: the feedback file, the observable outcome
of the train.py subprocess (none when subprocess.run itself raises, otherwise
its captured output), whether POST /reload succeeds, which directory deletions
succeed, and the wall clock. -/
structure Env where
  feedback_lines : List String
  train_out : Option String
  reload_ok : Bool
  rm_ok : String → Bool
  now : Int

/-- The durable state a run reads and writes: the state file (σ is the file
representation — String for raw bytes; none = file absent) and the model
directory listing. -/
structure World (σ : Type) where
  state_file : Option σ
  models : List (String × Int)

/-- load_state: parse the file if present, defaulting on absence or a parse
failure; parse abstracts json.loads plus the per-key .get defaults. -/
def load_state {σ : Type} (parse : σ → Option TrainState) (file : Option σ) : TrainState :=
  match file with
  | some s => (parse s).getD defaultState
  | none => defaultState

/-- run_train: the subprocess either raises (none) or yields output that the
marker parse accepts or rejects; a reject raises RuntimeError, so the
successful outcomes are exactly the parsed paths. -/
def run_train (env : Env) : Option String :=
  match env.train_out with
  | none => none
  | some out => parse_saved_model out

/-- reload_api: a successful POST logs the OK line; every failure is caught
and logged as the warning line — it never propagates. -/
def reload_api (ok : Bool) : List String :=
  if ok then ["Reload OK"] else ["[autotrain] WARNING: reload failed"]

/-- Outcome of one scheduler invocation. -/
inductive RunResult where
  | skipped
  | trainFailed
  | promoted (path : String)
  deriving DecidableEq, Repr

/-- main of autotrain.py: read the count, load state, check the policy, train,
hot-reload (failure tolerated), prune, persist the updated state.  An
exception from run_train aborts the run before any other effect (trainFailed);
dump abstracts json.dumps of save_state. -/
def main {σ : Type} (parse : σ → Option TrainState) (dump : TrainState → σ)
    (env : Env) (w : World σ) : World σ × RunResult × List String :=
  let total := read_count env.feedback_lines
  let state := load_state parse w.state_file
  if should_train (total : Int) state env.now then
    match run_train env with
    | none => (w, RunResult.trainFailed, [])
    | some model_path =>
      let log := reload_api env.reload_ok
      let models2 := prune_old_models env.rm_ok w.models KEEP_LAST
      let st2 : TrainState :=
        { state with
            last_count := (total : Int), last_time := env.now, last_model := model_path }
      (⟨some (dump st2), models2⟩, RunResult.promoted model_path, log)
  else
    (w, RunResult.skipped, [])

end Autotrain

namespace Autotrain

/-- Unfolding of should_train as a single predicate. -/
theorem should_train_eq_true_iff (total : Int) (state : TrainState) (now : Int) :
    should_train total state now = true ↔
      (MIN_TOTAL ≤ total ∧
        (MIN_NEW ≤ total - state.last_count ∨ COOLDOWN ≤ now - state.last_time)) := by
  unfold should_train
  split
  · next h =>
    simp only [Bool.false_eq_true, false_iff]
    intro hc
    unfold MIN_TOTAL at hc
    unfold MIN_TOTAL at h
    omega
  · next h =>
    split
    · next h2 =>
      simp only [Bool.false_eq_true, false_iff]
      intro hc
      rcases hc with ⟨_, hc2 | hc3⟩
      · exact absurd hc2 (by omega)
      · exact absurd hc3 (by omega)
    · next h2 =>
      simp only [true_iff]
      rw [not_and_or] at h2
      constructor
      · unfold MIN_TOTAL at h ⊢
        omega
      · rcases h2 with h2 | h2
        · exact Or.inl (by omega)
        · exact Or.inr (by omega)

/-- C1: the scheduler decision should_train(total, state) is true exactly when
total ≥ MIN_TOTAL and (total - last_count ≥ MIN_NEW or now - last_time ≥ COOLDOWN);
in particular total 29 is always refused, total 30 with last_count 0 and a run one
hour ago fires, and total 35 with last_count 30 and a run one hour ago is refused. -/
theorem should_train_spec :
    (∀ (total : Int) (state : TrainState) (now : Int),
        should_train total state now = true ↔
          (MIN_TOTAL ≤ total ∧
            (MIN_NEW ≤ total - state.last_count ∨ COOLDOWN ≤ now - state.last_time)))
    ∧ (∀ (state : TrainState) (now : Int), should_train 29 state now = false)
    ∧ (∀ now : Int, should_train 30 ⟨0, now - 3600, ""⟩ now = true)
    ∧ (∀ now : Int, should_train 35 ⟨30, now - 3600, ""⟩ now = false) := by
  refine ⟨should_train_eq_true_iff, ?_, ?_, ?_⟩
  · intro state now
    rw [← Bool.not_eq_true, should_train_eq_true_iff]
    intro ⟨h, _⟩
    unfold MIN_TOTAL at h
    omega
  · intro now
    rw [should_train_eq_true_iff]
    refine ⟨by unfold MIN_TOTAL; omega, Or.inl ?_⟩
    unfold MIN_NEW
    simp only
    omega
  · intro now
    rw [← Bool.not_eq_true, should_train_eq_true_iff]
    intro ⟨_, h⟩
    rcases h with h | h
    · unfold MIN_NEW at h
      simp only at h
      omega
    · unfold COOLDOWN at h
      simp only at h
      omega

/-- C1 witness: the scheduler instances at concrete inputs, via the theorem. -/
theorem should_train_witness :
    (should_train 29 defaultState 0 = false)
    ∧ (should_train 30 ⟨0, 0 - 3600, ""⟩ 0 = true)
    ∧ (should_train 35 ⟨30, 0 - 3600, ""⟩ 0 = false) :=
  ⟨should_train_spec.2.1 defaultState 0, should_train_spec.2.2.1 0,
    should_train_spec.2.2.2 0⟩

end Autotrain

namespace AppApi

/-- The predict accumulator loop computes pointwise maps of the input order. -/
theorem predict_loop_eq (clf : String → RawOut) (texts : List String)
    (acc : List String × List Rat) :
    texts.foldl (predictStep clf) acc =
      (acc.1 ++ texts.map (fun t => postLabel (clf t)),
       acc.2 ++ texts.map (fun t => (clf t).score)) := by
  induction texts generalizing acc with
  | nil => simp
  | cons t ts ih =>
    simp only [List.foldl_cons, List.map_cons, ih]
    unfold predictStep
    simp

/-- postLabel never returns SARCASM for a score below THRESHOLD. -/
theorem postLabel_no_low_sarcasm (o : RawOut) :
    ¬(postLabel o = "SARCASM" ∧ o.score < THRESHOLD) := by
  intro ⟨h1, h2⟩
  simp only [postLabel] at h1
  by_cases h : label_map_get o.label = "SARCASM" ∧ o.score < THRESHOLD
  · rw [if_pos h] at h1
    exact absurd h1 (by decide)
  · rw [if_neg h] at h1
    exact h ⟨h1, h2⟩

/-- C10: predict returns exactly one label and one score per input text, in
input order; a text whose mapped label is SARCASM with score below THRESHOLD
comes back as NOT_SARCASM; and no position of the response ever pairs the label
SARCASM with a score below 0.50. -/
theorem predict_threshold_spec (clf : String → RawOut) (texts : List String) :
    (predict clf texts).1 = texts.map (fun t => postLabel (clf t))
    ∧ (predict clf texts).2 = texts.map (fun t => (clf t).score)
    ∧ (predict clf texts).1.length = texts.length
    ∧ (predict clf texts).2.length = texts.length
    ∧ (∀ t : String, label_map_get (clf t).label = "SARCASM" → (clf t).score < THRESHOLD →
        postLabel (clf t) = "NOT_SARCASM")
    ∧ (∀ i : Nat,
        ¬((predict clf texts).1.getD i "" = "SARCASM"
            ∧ (predict clf texts).2.getD i 1 < THRESHOLD)) := by
  have hloop := predict_loop_eq clf texts ([], [])
  unfold predict
  rw [hloop]
  refine ⟨by simp, by simp, by simp, by simp, ?_, ?_⟩
  · intro t hmap hscore
    simp only [postLabel]
    rw [if_pos ⟨hmap, hscore⟩]
  · intro i
    intro ⟨h1, h2⟩
    simp only [List.nil_append] at h1 h2
    by_cases hi : i < texts.length
    · rw [List.getD_eq_getElem _ _ (by simpa using hi)] at h1
      rw [List.getD_eq_getElem _ _ (by simpa using hi)] at h2
      rw [List.getElem_map] at h1 h2
      exact postLabel_no_low_sarcasm _ ⟨h1, h2⟩
    · rw [List.getD_eq_default _ _ (by simpa using Nat.le_of_not_lt hi)] at h2
      revert h2
      norm_num [THRESHOLD]

/-- C10 witness: a raw LABEL_1 at score 0.25 comes back as NOT_SARCASM, via
the theorem. -/
theorem predict_threshold_witness :
    (label_map_get ((fun _ : String => RawOut.mk "LABEL_1" (1/4)) "h").label = "SARCASM")
    ∧ (((fun _ : String => RawOut.mk "LABEL_1" (1/4)) "h").score < THRESHOLD)
    ∧ (postLabel ((fun _ : String => RawOut.mk "LABEL_1" (1/4)) "h") = "NOT_SARCASM") := by
  refine ⟨by decide, by norm_num [THRESHOLD], ?_⟩
  exact (predict_threshold_spec (fun _ : String => RawOut.mk "LABEL_1" (1/4)) ["h"]).2.2.2.2.1
    "h" (by decide) (by norm_num [THRESHOLD])

/-- Both branches of the endpoint return the same constant response. -/
theorem feedback_resp_ok (h : String → String) (now : Int) (fb : FeedbackIn)
    (store : List FeedbackRecord) :
    (feedback h now fb store).2 = { ok := true } := by
  simp only [feedback]
  split
  · rfl
  · rfl

/-- Submitting a body whose id is already stored leaves the store untouched. -/
theorem feedback_dup_no_write (h : String → String) (now : Int) (fb : FeedbackIn)
    (store : List FeedbackRecord) (hmem : rid h fb ∈ store.map (fun r => r.id)) :
    (feedback h now fb store).1 = store := by
  simp only [feedback, mkRecord]
  rw [if_pos hmem]

/-- Submitting a body whose id is unseen appends exactly that record. -/
theorem feedback_fresh_append (h : String → String) (now : Int) (fb : FeedbackIn)
    (store : List FeedbackRecord) (hmem : rid h fb ∉ store.map (fun r => r.id)) :
    (feedback h now fb store).1 = store ++ [mkRecord h now fb] := by
  simp only [feedback, mkRecord]
  rw [if_neg hmem]

/-- C4: two submissions with the same (url, trimmed text) pair have the same
sha1-derived id, so only the first is persisted — the pair into an empty store
counts 1, and resubmitting a body right after submitting it never changes the
count, whatever the store was. -/
theorem feedback_dedup_spec (h : String → String) :
    (∀ (now1 now2 : Int) (fb1 fb2 : FeedbackIn),
        fb1.url = fb2.url → fb1.text.trim = fb2.text.trim →
        feedback_count (feedback h now2 fb2 (feedback h now1 fb1 []).1).1 = 1)
    ∧ (∀ (now1 now2 : Int) (fb : FeedbackIn) (store : List FeedbackRecord),
        feedback_count (feedback h now2 fb (feedback h now1 fb store).1).1
          = feedback_count (feedback h now1 fb store).1) := by
  constructor
  · intro now1 now2 fb1 fb2 hurl htext
    have hid : rid h fb2 = rid h fb1 := by
      unfold rid
      rw [hurl, htext]
    have h1 : (feedback h now1 fb1 []).1 = [mkRecord h now1 fb1] :=
      feedback_fresh_append h now1 fb1 [] (by simp)
    rw [h1]
    have hmem : rid h fb2 ∈ ([mkRecord h now1 fb1]).map (fun r => r.id) := by
      simp [mkRecord, hid]
    rw [feedback_dup_no_write h now2 fb2 _ hmem]
    rfl
  · intro now1 now2 fb store
    by_cases hmem : rid h fb ∈ store.map (fun r => r.id)
    · rw [feedback_dup_no_write h now1 fb store hmem]
      rw [feedback_dup_no_write h now2 fb store hmem]
    · rw [feedback_fresh_append h now1 fb store hmem]
      have hmem2 : rid h fb ∈ (store ++ [mkRecord h now1 fb]).map (fun r => r.id) := by
        simp [mkRecord]
      rw [feedback_dup_no_write h now2 fb _ hmem2]

/-- C4 witness: a concrete duplicate pair (identity digest stand-in) counts 1. -/
theorem feedback_dedup_witness :
    ((⟨some "a", "b", Sarcasm.Lbl.SARCASM, 1/2, Sarcasm.Lbl.SARCASM⟩ : FeedbackIn).url
        = (⟨some "a", "b", Sarcasm.Lbl.NOT_SARCASM, 9/10, Sarcasm.Lbl.SARCASM⟩ : FeedbackIn).url)
    ∧ ((⟨some "a", "b", Sarcasm.Lbl.SARCASM, 1/2, Sarcasm.Lbl.SARCASM⟩ : FeedbackIn).text.trim
        = (⟨some "a", "b", Sarcasm.Lbl.NOT_SARCASM, 9/10, Sarcasm.Lbl.SARCASM⟩ : FeedbackIn).text.trim)
    ∧ feedback_count
        (feedback (fun s => s) 1
          (⟨some "a", "b", Sarcasm.Lbl.NOT_SARCASM, 9/10, Sarcasm.Lbl.SARCASM⟩ : FeedbackIn)
          (feedback (fun s => s) 0
            (⟨some "a", "b", Sarcasm.Lbl.SARCASM, 1/2, Sarcasm.Lbl.SARCASM⟩ : FeedbackIn) []).1).1 = 1 := by
  refine ⟨rfl, rfl, ?_⟩
  exact (feedback_dedup_spec (fun s => s)).1 0 1 _ _ rfl rfl

/-- C5 counterexample: the endpoint reports no accepted flag — a duplicate
submission gets exactly the same response as the accepted first submission,
namely the constant dict with ok true. -/
theorem feedback_accepted_counterexample :
    ((feedback (fun s => s) 1
        (⟨some "a", "b", Sarcasm.Lbl.SARCASM, 1/2, Sarcasm.Lbl.SARCASM⟩ : FeedbackIn)
        (feedback (fun s => s) 0
          (⟨some "a", "b", Sarcasm.Lbl.SARCASM, 1/2, Sarcasm.Lbl.SARCASM⟩ : FeedbackIn) []).1).2
      = (feedback (fun s => s) 0
          (⟨some "a", "b", Sarcasm.Lbl.SARCASM, 1/2, Sarcasm.Lbl.SARCASM⟩ : FeedbackIn) []).2)
    ∧ (feedback (fun s => s) 1
        (⟨some "a", "b", Sarcasm.Lbl.SARCASM, 1/2, Sarcasm.Lbl.SARCASM⟩ : FeedbackIn)
        (feedback (fun s => s) 0
          (⟨some "a", "b", Sarcasm.Lbl.SARCASM, 1/2, Sarcasm.Lbl.SARCASM⟩ : FeedbackIn) []).1).2.ok
      = true := by
  constructor
  · rw [feedback_resp_ok, feedback_resp_ok]
  · rw [feedback_resp_ok]

/-- C5 (amended): the feedback endpoint always answers the constant response
with ok true — it does not report acceptance; the write behaviour is as the
claim says: no write when the id is already present, append when it is not. -/
theorem feedback_accepted_spec (h : String → String) (now : Int) (fb : FeedbackIn)
    (store : List FeedbackRecord) :
    ((feedback h now fb store).2 = { ok := true })
    ∧ (rid h fb ∈ store.map (fun r => r.id) → (feedback h now fb store).1 = store)
    ∧ (rid h fb ∉ store.map (fun r => r.id) →
        (feedback h now fb store).1 = store ++ [mkRecord h now fb]) := by
  exact ⟨feedback_resp_ok h now fb store, feedback_dup_no_write h now fb store,
    feedback_fresh_append h now fb store⟩

/-- C5 witness: the amended theorem at a concrete fresh submission. -/
theorem feedback_accepted_witness :
    ((feedback (fun s => s) 0
        (⟨none, "x", Sarcasm.Lbl.SARCASM, 1/2, Sarcasm.Lbl.NOT_SARCASM⟩ : FeedbackIn) []).2
      = { ok := true })
    ∧ ((feedback (fun s => s) 0
        (⟨none, "x", Sarcasm.Lbl.SARCASM, 1/2, Sarcasm.Lbl.NOT_SARCASM⟩ : FeedbackIn) []).1
      = [] ++ [mkRecord (fun s => s) 0
          (⟨none, "x", Sarcasm.Lbl.SARCASM, 1/2, Sarcasm.Lbl.NOT_SARCASM⟩ : FeedbackIn)]) := by
  constructor
  · exact (feedback_accepted_spec (fun s => s) 0 _ []).1
  · exact (feedback_accepted_spec (fun s => s) 0 _ []).2.2 (by decide)

end AppApi

namespace Train

/-- Each loop iteration appends exactly the replicated block for its row. -/
theorem buildStep_eq (out : List TRow) (r : FbRow) :
    buildStep out r = out ++ List.replicate (rowWeight r) ⟨r.text, label2id r.user⟩ := by
  simp only [buildStep, rowWeight]
  by_cases h1 : r.user ≠ r.pred
  · rw [if_pos h1, if_pos h1, List.append_assoc]
    rfl
  · rw [if_neg h1, if_neg h1]
    by_cases h2 : UNCERT_BAND.1 ≤ p_sarcasm_from_row r ∧ p_sarcasm_from_row r ≤ UNCERT_BAND.2
    · rw [if_pos h2, if_pos h2, List.append_assoc]
      rfl
    · rw [if_neg h2, if_neg h2]
      rfl

/-- The builder loop with any accumulator is the accumulator followed by the
per-row replicated blocks in order. -/
theorem build_loop_eq (rows : List FbRow) (out : List TRow) :
    rows.foldl buildStep out =
      out ++ rows.flatMap (fun r => List.replicate (rowWeight r) ⟨r.text, label2id r.user⟩) := by
  induction rows generalizing out with
  | nil => simp
  | cons r rs ih =>
    rw [List.foldl_cons, ih, buildStep_eq, List.flatMap_cons, List.append_assoc]

/-- C3: every feedback row contributes exactly rowWeight copies of the row
labelled with the user label — 3 copies on disagreement, 2 on an uncertain
agreement (P(SARCASM) within [0.45, 0.65] inclusive), 1 otherwise — and the
three concrete spec rows produce 3, 1 and 2 rows respectively. -/
theorem build_training_rows_spec :
    (∀ rows : List FbRow,
        build_training_rows rows =
          rows.flatMap (fun r => List.replicate (rowWeight r) ⟨r.text, label2id r.user⟩))
    ∧ (∀ r : FbRow, r.user ≠ r.pred → rowWeight r = 3)
    ∧ (∀ r : FbRow, r.user = r.pred →
        UNCERT_BAND.1 ≤ p_sarcasm_from_row r → p_sarcasm_from_row r ≤ UNCERT_BAND.2 →
        rowWeight r = 2)
    ∧ (∀ r : FbRow, r.user = r.pred →
        ¬(UNCERT_BAND.1 ≤ p_sarcasm_from_row r ∧ p_sarcasm_from_row r ≤ UNCERT_BAND.2) →
        rowWeight r = 1)
    ∧ build_training_rows [⟨"t", Sarcasm.Lbl.SARCASM, Sarcasm.Lbl.NOT_SARCASM, 9/10⟩]
        = [⟨"t", 1⟩, ⟨"t", 1⟩, ⟨"t", 1⟩]
    ∧ build_training_rows [⟨"t", Sarcasm.Lbl.SARCASM, Sarcasm.Lbl.SARCASM, 95/100⟩]
        = [⟨"t", 1⟩]
    ∧ build_training_rows [⟨"t", Sarcasm.Lbl.SARCASM, Sarcasm.Lbl.SARCASM, 55/100⟩]
        = [⟨"t", 1⟩, ⟨"t", 1⟩] := by
  have hgen : ∀ rows : List FbRow,
      build_training_rows rows =
        rows.flatMap (fun r => List.replicate (rowWeight r) ⟨r.text, label2id r.user⟩) := by
    intro rows
    unfold build_training_rows
    rw [build_loop_eq, List.nil_append]
  refine ⟨hgen, ?_, ?_, ?_, ?_, ?_, ?_⟩
  · intro r h
    simp only [rowWeight]
    rw [if_pos h]
    rfl
  · intro r h h1 h2
    simp only [rowWeight]
    rw [if_neg (by simpa using h), if_pos ⟨h1, h2⟩]
    rfl
  · intro r h hband
    simp only [rowWeight]
    rw [if_neg (by simpa using h), if_neg hband]
  · rw [hgen]
    have hw : rowWeight (⟨"t", Sarcasm.Lbl.SARCASM, Sarcasm.Lbl.NOT_SARCASM, 9/10⟩ : FbRow) = 3 := by
      simp only [rowWeight]
      rw [if_pos (by decide)]
      rfl
    simp [hw, label2id, List.replicate]
  · rw [hgen]
    have hp : p_sarcasm_from_row (⟨"t", Sarcasm.Lbl.SARCASM, Sarcasm.Lbl.SARCASM, 95/100⟩ : FbRow)
        = 95/100 := by
      simp only [p_sarcasm_from_row]
      rw [if_pos (by decide)]
    have hw : rowWeight (⟨"t", Sarcasm.Lbl.SARCASM, Sarcasm.Lbl.SARCASM, 95/100⟩ : FbRow) = 1 := by
      simp only [rowWeight]
      rw [if_neg (by decide), if_neg (by rw [hp]; norm_num [UNCERT_BAND])]
    simp [hw, label2id, List.replicate]
  · rw [hgen]
    have hp : p_sarcasm_from_row (⟨"t", Sarcasm.Lbl.SARCASM, Sarcasm.Lbl.SARCASM, 55/100⟩ : FbRow)
        = 55/100 := by
      simp only [p_sarcasm_from_row]
      rw [if_pos (by decide)]
    have hw : rowWeight (⟨"t", Sarcasm.Lbl.SARCASM, Sarcasm.Lbl.SARCASM, 55/100⟩ : FbRow) = 2 := by
      simp only [rowWeight]
      rw [if_neg (by decide),
        if_pos ⟨by rw [hp]; norm_num [UNCERT_BAND], by rw [hp]; norm_num [UNCERT_BAND]⟩]
      rfl
    simp [hw, label2id, List.replicate]

/-- C3 witness: the spec disagreement row has weight 3. -/
theorem build_training_rows_witness :
    ((⟨"t", Sarcasm.Lbl.SARCASM, Sarcasm.Lbl.NOT_SARCASM, 9/10⟩ : FbRow).user
        ≠ (⟨"t", Sarcasm.Lbl.SARCASM, Sarcasm.Lbl.NOT_SARCASM, 9/10⟩ : FbRow).pred)
    ∧ rowWeight (⟨"t", Sarcasm.Lbl.SARCASM, Sarcasm.Lbl.NOT_SARCASM, 9/10⟩ : FbRow) = 3 := by
  refine ⟨by decide, ?_⟩
  exact build_training_rows_spec.2.1 _ (by decide)

/-- Setting an index to the element already there is the identity. -/
theorem set_get_self_eq {α : Type} (l : List α) (i : Nat) (hi : i < l.length) :
    l.set i (l.get ⟨i, hi⟩) = l := by
  apply List.ext_getElem
  · simp
  · intro n h1 h2
    rw [List.getElem_set]
    split
    · next h => subst n; rfl
    · rfl

/-- A swap is a permutation. -/
theorem swapIdx_perm {α : Type} [DecidableEq α] (l : List α) (i j : Nat) :
    (swapIdx l i j).Perm l := by
  unfold swapIdx
  split
  · next hi =>
    split
    · next hj =>
      rcases eq_or_ne i j with rfl | hne
      · rw [set_get_self_eq, set_get_self_eq]
      · rw [List.perm_iff_count]
        intro a
        rw [show l.get ⟨j, hj⟩ = l[j] from rfl, show l.get ⟨i, hi⟩ = l[i] from rfl]
        have hj2 : j < (l.set i l[j]).length := by simpa using hj
        rw [List.count_set _ _ _ _ hj2, List.count_set _ _ _ _ hi]
        rw [List.getElem_set]
        rw [if_neg hne]
        have hcnt : (l[i] == a) = true → 1 ≤ l.count a := by
          intro hb
          have hm : l[i] ∈ l := List.getElem_mem hi
          rw [beq_iff_eq] at hb
          subst hb
          exact List.count_pos_iff.mpr hm
        have hcnt2 : (l[j] == a) = true → 1 ≤ l.count a := by
          intro hb
          have hm : l[j] ∈ l := List.getElem_mem hj
          rw [beq_iff_eq] at hb
          subst hb
          exact List.count_pos_iff.mpr hm
        by_cases h1 : (l[i] == a) = true <;> by_cases h2 : (l[j] == a) = true
        · rw [if_pos h1, if_pos h2]
          have := hcnt h1
          omega
        · rw [if_pos h1, if_neg h2]
          have := hcnt h1
          omega
        · rw [if_neg h1, if_pos h2]
          omega
        · rw [if_neg h1, if_neg h2]
          omega
    · exact List.Perm.refl l
  · exact List.Perm.refl l

/-- The whole shuffle loop is a permutation. -/
theorem shuffleGo_perm {α : Type} [DecidableEq α] (g : Nat → Nat) :
    ∀ (n : Nat) (l : List α), (shuffleGo g n l).Perm l := by
  intro n
  induction n with
  | zero => intro l; exact List.Perm.refl l
  | succ i ih =>
    intro l
    unfold shuffleGo
    exact (ih _).trans (swapIdx_perm l (i + 1) (g (i + 1) % (i + 2)))

/-- pyShuffle permutes its input. -/
theorem pyShuffle_perm {α : Type} [DecidableEq α] (g : Nat → Nat) (l : List α) :
    (pyShuffle g l).Perm l :=
  shuffleGo_perm g (l.length - 1) l

/-- C9: for a non-empty weighted row list the split is deterministic for a
fixed draw stream (equal snapshots give equal shuffles and splits), the
validation set is exactly the first max(1, floor(0.1 n)) rows of the shuffled
sequence, the training set the rest, and together they partition the weighted
rows (the concatenation is the shuffle, a permutation of the input). -/
theorem main_split_spec (g : Nat → Nat) (rows : List TRow) (hne : rows ≠ []) :
    ((main_split g rows).1 ++ (main_split g rows).2 = pyShuffle g rows)
    ∧ (pyShuffle g rows).Perm rows
    ∧ ((main_split g rows).1 ++ (main_split g rows).2).Perm rows
    ∧ (main_split g rows).1 = (pyShuffle g rows).take (max 1 (rows.length / 10))
    ∧ (main_split g rows).2 = (pyShuffle g rows).drop (max 1 (rows.length / 10))
    ∧ (main_split g rows).1.length = max 1 (rows.length / 10)
    ∧ (∀ rows2, rows2 = rows → main_split g rows2 = main_split g rows) := by
  have hperm : (pyShuffle g rows).Perm rows := pyShuffle_perm g rows
  have hlen : (pyShuffle g rows).length = rows.length := hperm.length_eq
  have htd : ((main_split g rows).1 ++ (main_split g rows).2 = pyShuffle g rows) := by
    simp only [main_split]
    exact List.take_append_drop _ _
  refine ⟨htd, hperm, ?_, ?_, ?_, ?_, ?_⟩
  · rw [htd]
    exact hperm
  · simp only [main_split, hlen]
  · simp only [main_split, hlen]
  · simp only [main_split, hlen, List.length_take]
    have h1 : 1 ≤ rows.length := by
      cases rows with
      | nil => exact absurd rfl hne
      | cons a l => simp
    have h2 : rows.length / 10 ≤ rows.length := Nat.div_le_self _ _
    omega
  · intro rows2 hr
    rw [hr]

/-- C9 witness: the split of a concrete two-row snapshot under a concrete
stream, via the theorem. -/
theorem main_split_witness :
    (([⟨"a", 0⟩, ⟨"b", 1⟩] : List TRow) ≠ [])
    ∧ (main_split (fun k => k) [⟨"a", 0⟩, ⟨"b", 1⟩]).1.length
        = max 1 (([⟨"a", 0⟩, ⟨"b", 1⟩] : List TRow).length / 10) := by
  refine ⟨by decide, ?_⟩
  exact (main_split_spec (fun k => k) [⟨"a", 0⟩, ⟨"b", 1⟩] (by decide)).2.2.2.2.2.1

end Train

namespace Autotrain

/-- The sequential deletion loop equals a single filter: a directory survives
exactly when its name was never targeted or its own deletion failed —
independently of any other deletion failing. -/
theorem rmtree_foldl_eq (rm_ok : String → Bool) (names : List String) :
    ∀ fs : List (String × Int),
      names.foldl (rmtree rm_ok) fs
        = fs.filter (fun d => !(names.contains d.1 && rm_ok d.1)) := by
  induction names with
  | nil =>
    intro fs
    simp
  | cons n ns ih =>
    intro fs
    rw [List.foldl_cons, ih]
    by_cases hn : rm_ok n = true
    · simp only [rmtree, if_pos hn]
      rw [List.filter_filter]
      apply List.filter_congr
      intro d _
      by_cases hd : d.1 = n
      · subst hd
        simp [hn]
      · simp [hd, Ne.symm hd, bne]
    · simp only [rmtree, if_neg hn]
      apply List.filter_congr
      intro d _
      by_cases hd : d.1 = n
      · subst hd
        simp [Bool.eq_false_iff.mpr hn]
      · simp [hd, Ne.symm hd]

/-- mtimeGe is transitive (as required by sorted_mergeSort). -/
theorem mtimeGe_trans (a b c : String × Int) :
    mtimeGe a b = true → mtimeGe b c = true → mtimeGe a c = true := by
  simp only [mtimeGe, decide_eq_true_eq]
  omega

/-- mtimeGe is total. -/
theorem mtimeGe_total (a b : String × Int) :
    (mtimeGe a b || mtimeGe b a) = true := by
  simp only [mtimeGe, Bool.or_eq_true, decide_eq_true_eq]
  omega

/-- C7: with distinct modification times (and the distinct names a directory
listing guarantees), pruning with KEEP_LAST = 5 attempts deletion exactly on
the directories beyond the 5 newest; each such directory disappears exactly
when its own deletion succeeds, independent of other deletions failing; every
directory beyond the keep boundary is strictly older than every kept one; if
every deletion succeeds the survivors are exactly the 5 newest, and with 7
directories exactly the 2 oldest are removed. -/
theorem prune_old_models_spec (rm_ok : String → Bool) (fs : List (String × Int))
    (hm : fs.Pairwise (fun a b => a.2 ≠ b.2))
    (hn : fs.Pairwise (fun a b => a.1 ≠ b.1)) :
    (prune_old_models rm_ok fs KEEP_LAST
        = fs.filter
            (fun d => !((((fs.mergeSort mtimeGe).drop KEEP_LAST).map (fun e => e.1)).contains d.1
                && rm_ok d.1)))
    ∧ (∀ a ∈ (fs.mergeSort mtimeGe).take KEEP_LAST,
        ∀ b ∈ (fs.mergeSort mtimeGe).drop KEEP_LAST, b.2 < a.2)
    ∧ ((∀ s, rm_ok s = true) →
        (prune_old_models rm_ok fs KEEP_LAST).Perm ((fs.mergeSort mtimeGe).take KEEP_LAST))
    ∧ ((∀ s, rm_ok s = true) → fs.length = 7 →
        (prune_old_models rm_ok fs KEEP_LAST).length = 5
          ∧ ((fs.mergeSort mtimeGe).drop KEEP_LAST).length = 2) := by
  have hperm : (fs.mergeSort mtimeGe).Perm fs := List.mergeSort_perm fs mtimeGe
  have heq : prune_old_models rm_ok fs KEEP_LAST
      = fs.filter
          (fun d => !((((fs.mergeSort mtimeGe).drop KEEP_LAST).map (fun e => e.1)).contains d.1
              && rm_ok d.1)) := by
    unfold prune_old_models
    exact rmtree_foldl_eq rm_ok _ fs
  have hsort : (fs.mergeSort mtimeGe).Pairwise (fun a b => mtimeGe a b = true) :=
    List.sorted_mergeSort mtimeGe_trans mtimeGe_total fs
  have hdistm : (fs.mergeSort mtimeGe).Pairwise (fun a b => a.2 ≠ b.2) :=
    (hperm.pairwise_iff (fun h => h.symm)).mpr hm
  have hdistn : (fs.mergeSort mtimeGe).Pairwise (fun a b => a.1 ≠ b.1) :=
    (hperm.pairwise_iff (fun h => h.symm)).mpr hn
  have htd : (fs.mergeSort mtimeGe).take KEEP_LAST ++ (fs.mergeSort mtimeGe).drop KEEP_LAST
      = fs.mergeSort mtimeGe := List.take_append_drop _ _
  have hcross_ge : ∀ a ∈ (fs.mergeSort mtimeGe).take KEEP_LAST,
      ∀ b ∈ (fs.mergeSort mtimeGe).drop KEEP_LAST, mtimeGe a b = true := by
    have h := hsort
    rw [← htd] at h
    exact (List.pairwise_append.mp h).2.2
  have hcross_m : ∀ a ∈ (fs.mergeSort mtimeGe).take KEEP_LAST,
      ∀ b ∈ (fs.mergeSort mtimeGe).drop KEEP_LAST, a.2 ≠ b.2 := by
    have h := hdistm
    rw [← htd] at h
    exact (List.pairwise_append.mp h).2.2
  have hcross_n : ∀ a ∈ (fs.mergeSort mtimeGe).take KEEP_LAST,
      ∀ b ∈ (fs.mergeSort mtimeGe).drop KEEP_LAST, a.1 ≠ b.1 := by
    have h := hdistn
    rw [← htd] at h
    exact (List.pairwise_append.mp h).2.2
  have hkeep : (∀ s, rm_ok s = true) →
      (prune_old_models rm_ok fs KEEP_LAST).Perm ((fs.mergeSort mtimeGe).take KEEP_LAST) := by
    intro hall
    rw [heq]
    have hstep : (fs.filter
        (fun d => !((((fs.mergeSort mtimeGe).drop KEEP_LAST).map (fun e => e.1)).contains d.1
            && rm_ok d.1))).Perm
        ((fs.mergeSort mtimeGe).filter
          (fun d => !((((fs.mergeSort mtimeGe).drop KEEP_LAST).map (fun e => e.1)).contains d.1
              && rm_ok d.1))) :=
      List.Perm.filter _ hperm.symm
    refine hstep.trans ?_
    have hsplit := congrArg
      (List.filter
        (fun d => !((((fs.mergeSort mtimeGe).drop KEEP_LAST).map (fun e => e.1)).contains d.1
            && rm_ok d.1))) htd
    rw [List.filter_append] at hsplit
    have hkept : ((fs.mergeSort mtimeGe).take KEEP_LAST).filter
        (fun d => !((((fs.mergeSort mtimeGe).drop KEEP_LAST).map (fun e => e.1)).contains d.1
            && rm_ok d.1))
        = (fs.mergeSort mtimeGe).take KEEP_LAST := by
      rw [List.filter_eq_self]
      intro a ha
      have hcont : (((fs.mergeSort mtimeGe).drop KEEP_LAST).map (fun e => e.1)).contains a.1
          = false := by
        rw [Bool.eq_false_iff]
        intro hc
        rw [List.contains_eq_any_beq, List.any_eq_true] at hc
        obtain ⟨x, hx, hbeq⟩ := hc
        rw [List.mem_map] at hx
        obtain ⟨b, hb, rfl⟩ := hx
        rw [beq_iff_eq] at hbeq
        exact hcross_n a ha b hb hbeq
      rw [hcont]
      rfl
    have hvict : ((fs.mergeSort mtimeGe).drop KEEP_LAST).filter
        (fun d => !((((fs.mergeSort mtimeGe).drop KEEP_LAST).map (fun e => e.1)).contains d.1
            && rm_ok d.1))
        = [] := by
      rw [List.filter_eq_nil_iff]
      intro b hb
      have hcont : (((fs.mergeSort mtimeGe).drop KEEP_LAST).map (fun e => e.1)).contains b.1
          = true := by
        rw [List.contains_eq_any_beq, List.any_eq_true]
        exact ⟨b.1, List.mem_map_of_mem _ hb, by rw [beq_iff_eq]⟩
      rw [hcont, hall b.1]
      simp
    rw [← hsplit, hkept, hvict, List.append_nil]
  refine ⟨heq, ?_, hkeep, ?_⟩

  · intro a ha b hb
    have h1 := hcross_ge a ha b hb
    have h2 := hcross_m a ha b hb
    simp only [mtimeGe, decide_eq_true_eq] at h1
    omega
  · intro hall h7
    have hlenf : (fs.mergeSort mtimeGe).length = 7 := by
      rw [hperm.length_eq, h7]
    constructor
    · rw [(hkeep hall).length_eq, List.length_take, hlenf]
      rfl
    · rw [List.length_drop, hlenf]
      rfl

/-- C7 witness: seven concrete directories with distinct mtimes and all
deletions succeeding leave exactly five, with two pruned. -/
theorem prune_old_models_witness :
    (([("m1", 1), ("m2", 2), ("m3", 3), ("m4", 4), ("m5", 5), ("m6", 6), ("m7", 7)]
        : List (String × Int)).Pairwise (fun a b => a.2 ≠ b.2))
    ∧ (([("m1", 1), ("m2", 2), ("m3", 3), ("m4", 4), ("m5", 5), ("m6", 6), ("m7", 7)]
        : List (String × Int)).Pairwise (fun a b => a.1 ≠ b.1))
    ∧ (prune_old_models (fun _ => true)
        [("m1", 1), ("m2", 2), ("m3", 3), ("m4", 4), ("m5", 5), ("m6", 6), ("m7", 7)]
        KEEP_LAST).length = 5
    ∧ (((([("m1", 1), ("m2", 2), ("m3", 3), ("m4", 4), ("m5", 5), ("m6", 6), ("m7", 7)]
        : List (String × Int)).mergeSort mtimeGe).drop KEEP_LAST).length = 2) := by
  refine ⟨by decide, by decide, ?_, ?_⟩
  · exact ((prune_old_models_spec (fun _ => true) _ (by decide) (by decide)).2.2.2
      (fun s => rfl) (by decide)).1
  · exact ((prune_old_models_spec (fun _ => true) _ (by decide) (by decide)).2.2.2
      (fun s => rfl) (by decide)).2

/-- A run the policy refuses performs no effect. -/
theorem main_eq_skip {σ : Type} (parse : σ → Option TrainState) (dump : TrainState → σ)
    (env : Env) (w : World σ)
    (hf : should_train ((read_count env.feedback_lines : Int))
        (load_state parse w.state_file) env.now = false) :
    main parse dump env w = (w, RunResult.skipped, []) := by
  simp only [main]
  rw [hf]
  rfl

/-- A run whose training step fails performs no effect besides the abort. -/
theorem main_eq_failed {σ : Type} (parse : σ → Option TrainState) (dump : TrainState → σ)
    (env : Env) (w : World σ)
    (hf : should_train ((read_count env.feedback_lines : Int))
        (load_state parse w.state_file) env.now = true)
    (hrt : run_train env = none) :
    main parse dump env w = (w, RunResult.trainFailed, []) := by
  simp only [main]
  rw [hf, hrt]
  rfl

/-- A run whose training step yields a path prunes, persists the updated
state, and reports the promotion together with the reload log. -/
theorem main_eq_promoted {σ : Type} (parse : σ → Option TrainState) (dump : TrainState → σ)
    (env : Env) (w : World σ) (path : String)
    (hf : should_train ((read_count env.feedback_lines : Int))
        (load_state parse w.state_file) env.now = true)
    (hrt : run_train env = some path) :
    main parse dump env w =
      (⟨some (dump
          { load_state parse w.state_file with
              last_count := (read_count env.feedback_lines : Int),
              last_time := env.now, last_model := path }),
        prune_old_models env.rm_ok w.models KEEP_LAST⟩,
       RunResult.promoted path, reload_api env.reload_ok) := by
  simp only [main]
  rw [hf, hrt]
  rfl

/-- A promoted outcome can only arise from a fired policy and a parsed path. -/
theorem main_promoted_inv {σ : Type} (parse : σ → Option TrainState) (dump : TrainState → σ)
    (env : Env) (w : World σ) (path : String)
    (h : (main parse dump env w).2.1 = RunResult.promoted path) :
    should_train ((read_count env.feedback_lines : Int))
        (load_state parse w.state_file) env.now = true
    ∧ run_train env = some path := by
  by_cases hf : should_train ((read_count env.feedback_lines : Int))
      (load_state parse w.state_file) env.now = true
  · cases hrt : run_train env with
    | none =>
      rw [main_eq_failed parse dump env w hf hrt] at h
      exact absurd h (by simp)
    | some p =>
      rw [main_eq_promoted parse dump env w p hf hrt] at h
      simp only [RunResult.promoted.injEq] at h
      subst h
      exact ⟨hf, rfl⟩
  · rw [main_eq_skip parse dump env w (Bool.eq_false_iff.mpr hf)] at h
    exact absurd h (by simp)

/-- run_train fails exactly when the subprocess raises or its output has no
parseable success marker. -/
theorem run_train_none_iff (env : Env) :
    run_train env = none ↔
      env.train_out = none
        ∨ ∃ out, env.train_out = some out ∧ parse_saved_model out = none := by
  unfold run_train
  cases hto : env.train_out with
  | none => simp
  | some out => simp

/-- C2: when the fine-tuning step fails — the subprocess raises, or its output
has no parseable success marker, which is exactly run_train = none — the run
aborts with trainFailed and the persisted world, the state file in particular,
is left byte-for-byte identical: nothing is ever written. -/
theorem failed_train_state_unchanged {σ : Type} (parse : σ → Option TrainState)
    (dump : TrainState → σ) (env : Env) (w : World σ)
    (hfail : run_train env = none) :
    (main parse dump env w).1.state_file = w.state_file
    ∧ (main parse dump env w).1 = w
    ∧ (should_train ((read_count env.feedback_lines : Int))
          (load_state parse w.state_file) env.now = true →
        (main parse dump env w).2.1 = RunResult.trainFailed)
    ∧ (run_train env = none ↔
        env.train_out = none
          ∨ ∃ out, env.train_out = some out ∧ parse_saved_model out = none) := by
  by_cases hf : should_train ((read_count env.feedback_lines : Int))
      (load_state parse w.state_file) env.now = true
  · rw [main_eq_failed parse dump env w hf hfail]
    exact ⟨rfl, rfl, fun _ => rfl, run_train_none_iff env⟩
  · rw [main_eq_skip parse dump env w (Bool.eq_false_iff.mpr hf)]
    exact ⟨rfl, rfl, fun hc => absurd hc hf, run_train_none_iff env⟩

/-- C2 witness: a raising subprocess leaves a concrete pre-run state file
exactly as it was. -/
theorem failed_train_witness :
    (run_train ⟨List.replicate 30 "x", none, true, fun _ => true, 0⟩ = none)
    ∧ ((main (fun s : TrainState => some s) (fun s => s)
          ⟨List.replicate 30 "x", none, true, fun _ => true, 0⟩
          ⟨some defaultState, [("m", 0)]⟩).1.state_file = some defaultState) := by
  refine ⟨rfl, ?_⟩
  exact (failed_train_state_unchanged (fun s : TrainState => some s) (fun s => s)
    ⟨List.replicate 30 "x", none, true, fun _ => true, 0⟩
    ⟨some defaultState, [("m", 0)]⟩ rfl).1

/-- C6: when training succeeds but the hot-reload fails, the failure is caught
and logged as the warning line, and the run still concludes: pruning executes
and the state file is updated with the new count, timestamp and promoted path. -/
theorem reload_failure_run_concludes {σ : Type} (parse : σ → Option TrainState)
    (dump : TrainState → σ) (env : Env) (w : World σ) (path : String)
    (hf : should_train ((read_count env.feedback_lines : Int))
        (load_state parse w.state_file) env.now = true)
    (hrt : run_train env = some path)
    (hrel : env.reload_ok = false) :
    (main parse dump env w).2.2 = ["[autotrain] WARNING: reload failed"]
    ∧ (main parse dump env w).1.models = prune_old_models env.rm_ok w.models KEEP_LAST
    ∧ (main parse dump env w).1.state_file
        = some (dump
            { load_state parse w.state_file with
                last_count := (read_count env.feedback_lines : Int),
                last_time := env.now, last_model := path })
    ∧ (main parse dump env w).2.1 = RunResult.promoted path := by
  rw [main_eq_promoted parse dump env w path hf hrt]
  refine ⟨?_, rfl, rfl, rfl⟩
  rw [hrel]
  rfl

/-- C6 witness: a concrete successful training with an unreachable API still
prunes and persists. -/
theorem reload_failure_witness :
    (should_train ((read_count (List.replicate 30 "x") : Int))
        (load_state (fun s : TrainState => some s) none) 1000000 = true)
    ∧ (run_train ⟨List.replicate 30 "x", some "Saved new model to: /m/v1", false,
        fun _ => true, 1000000⟩ = some "/m/v1")
    ∧ ((main (fun s : TrainState => some s) (fun s => s)
          ⟨List.replicate 30 "x", some "Saved new model to: /m/v1", false,
            fun _ => true, 1000000⟩
          ⟨none, []⟩).2.2 = ["[autotrain] WARNING: reload failed"]) := by
  refine ⟨by decide, by decide, ?_⟩
  exact (reload_failure_run_concludes (fun s : TrainState => some s) (fun s => s)
    ⟨List.replicate 30 "x", some "Saved new model to: /m/v1", false, fun _ => true, 1000000⟩
    ⟨none, []⟩ "/m/v1" (by decide) (by decide) rfl).1

/-- Appending lines to the feedback log never lowers the non-blank count. -/
theorem read_count_append (a b : List String) :
    read_count a ≤ read_count (a ++ b) := by
  unfold read_count
  rw [List.filter_append, List.length_append]
  omega

/-- C8: a successful run persists last_count equal to the feedback count read
at that run's start, and across two successful runs over an append-only
feedback log the persisted last_count never decreases. -/
theorem successful_run_count_spec {σ : Type} (parse : σ → Option TrainState)
    (dump : TrainState → σ) (hcodec : ∀ s, parse (dump s) = some s)
    (env1 : Env) (w1 : World σ) (path1 : String)
    (h1 : (main parse dump env1 w1).2.1 = RunResult.promoted path1) :
    (load_state parse (main parse dump env1 w1).1.state_file).last_count
        = (read_count env1.feedback_lines : Int)
    ∧ (∀ (env2 : Env) (path2 : String) (extra : List String),
        env2.feedback_lines = env1.feedback_lines ++ extra →
        (main parse dump env2 (main parse dump env1 w1).1).2.1 = RunResult.promoted path2 →
        (load_state parse (main parse dump env1 w1).1.state_file).last_count
          ≤ (load_state parse
              (main parse dump env2 (main parse dump env1 w1).1).1.state_file).last_count) := by
  obtain ⟨hf1, hrt1⟩ := main_promoted_inv parse dump env1 w1 path1 h1
  have hw1 := main_eq_promoted parse dump env1 w1 path1 hf1 hrt1
  have hload1 : load_state parse (main parse dump env1 w1).1.state_file
      = { load_state parse w1.state_file with
            last_count := (read_count env1.feedback_lines : Int),
            last_time := env1.now, last_model := path1 } := by
    rw [hw1]
    simp [load_state, hcodec]
  constructor
  · rw [hload1]
  · intro env2 path2 extra hext h2
    obtain ⟨hf2, hrt2⟩ := main_promoted_inv parse dump env2 _ path2 h2
    have hw2 := main_eq_promoted parse dump env2 (main parse dump env1 w1).1 path2 hf2 hrt2
    have hload2 : load_state parse (main parse dump env2 (main parse dump env1 w1).1).1.state_file
        = { load_state parse (main parse dump env1 w1).1.state_file with
              last_count := (read_count env2.feedback_lines : Int),
              last_time := env2.now, last_model := path2 } := by
      rw [hw2]
      simp [load_state, hcodec]
    rw [hload1, hload2]
    simp only
    rw [hext]
    exact_mod_cast read_count_append env1.feedback_lines extra

/-- C8 witness: two concrete successful runs over an append-only log persist
non-decreasing counts, the first equal to the count read at its start. -/
theorem successful_run_count_witness :
    ((main (fun s : TrainState => some s) (fun s => s)
        ⟨List.replicate 30 "x", some "Saved new model to: /m/v1", true, fun _ => true, 0⟩
        ⟨none, []⟩).2.1 = RunResult.promoted "/m/v1")
    ∧ ((load_state (fun s : TrainState => some s)
        (main (fun s : TrainState => some s) (fun s => s)
          ⟨List.replicate 30 "x", some "Saved new model to: /m/v1", true, fun _ => true, 0⟩
          ⟨none, []⟩).1.state_file).last_count
        = (read_count (List.replicate 30 "x") : Int)) := by
  refine ⟨by decide, ?_⟩
  exact (successful_run_count_spec (fun s : TrainState => some s) (fun s => s)
    (fun s => rfl)
    ⟨List.replicate 30 "x", some "Saved new model to: /m/v1", true, fun _ => true, 0⟩
    ⟨none, []⟩ "/m/v1" (by decide)).1

end Autotrain

end Sarcasm
